import Mathlib

/-!
Shallow embedding of the Dragon/Tiger betting game core (src/main.py).

The durable sqlite tables are modelled as in-memory values:
  users        : association list of user_id to points (table users);
  bets         : list of Bet rows (table bets, primary key (round_id, user_id));
  road_history : list of RoadRow rows (table road_history, primary key round_id);
  game_state   : a single RoundState record (singleton table game_state).

Time (unix timestamps) and the two randomly drawn cards are passed as
explicit parameters to the operations that read the clock or the secrets
module.  The transport layer (telegram messages, image rendering, the
game_chat_id guard) performs no ledger/round mutations and is elided.
The float payout multipliers 2.0 and 9.0 are modelled exactly as the
rationals 2 and 9; python's int() truncation toward zero is modelled by
pyInt.
-/

namespace DragonTiger

/-- STARTING_POINTS config constant. -/
def STARTING_POINTS : Int := 200000

/-- ROUND_SECONDS config constant. -/
def ROUND_SECONDS : Nat := 45

/-- REVEAL_DELAY_SECONDS config constant. -/
def REVEAL_DELAY_SECONDS : Nat := 2

/-- DAILY_REWARD config constant. -/
def DAILY_REWARD : Int := 10000

/-- CHOICES dict: valid choice codes and their display names. -/
def CHOICES : String → Option String
  | "D" => some "용(Dragon)"
  | "T" => some "호(Tiger)"
  | "I" => some "타이(Tie)"
  | _ => none

/-- PAYOUT dict: payout multiplier per winning side (stake-inclusive).
The python floats 2.0 and 9.0 are exactly the rationals 2 and 9. -/
def PAYOUT : String → ℚ
  | "D" => 2
  | "T" => 2
  | "I" => 9
  | _ => 0

/-- RANKS list, ace low through king high. -/
def RANKS : List String :=
  ["A", "2", "3", "4", "5", "6", "7", "8", "9", "10", "J", "Q", "K"]

/-- RANK_VALUE dict built from RANKS: A=1 ... K=13. -/
def RANK_VALUE (r : String) : Nat :=
  (RANKS.findIdx (fun x => x = r)) + 1

/-- python int() : truncation toward zero of a rational. -/
def pyInt (q : ℚ) : Int :=
  if 0 ≤ q then q.floor else -(-q).floor

/-- Card dataclass. -/
structure Card where
  rank : String
  suit : String
  deriving DecidableEq, Repr

/-- Card.value property. -/
def Card.value (c : Card) : Nat := RANK_VALUE c.rank

/-- Card.text method. -/
def Card.text (c : Card) : String := c.rank ++ c.suit

/-- decide(dragon, tiger): winning side from the two drawn cards. -/
def decide (dragon tiger : Card) : String :=
  if dragon.value > tiger.value then "D"
  else if tiger.value > dragon.value then "T"
  else "I"

/-- A row of the users table: (user_id, points). -/
abbrev Users := List (Nat × Int)

/-- SELECT points FROM users WHERE user_id=?  (first matching row). -/
def find_user : Users → Nat → Option Int
  | [], _ => none
  | (u, p) :: rest, uid => if u = uid then some p else find_user rest uid

/-- ensure_user: insert a row with STARTING_POINTS if none exists. -/
def ensure_user (users : Users) (uid : Nat) : Users :=
  match find_user users uid with
  | some _ => users
  | none => users ++ [(uid, STARTING_POINTS)]

/-- get_points: the stored balance, 0 for unknown users. -/
def get_points (users : Users) (uid : Nat) : Int :=
  match find_user users uid with
  | some p => p
  | none => 0

/-- add_points: UPDATE users SET points = points + delta WHERE user_id=?.
Applies the delta unconditionally to every matching row; a no-op when the
user has no row. -/
def add_points (users : Users) (uid : Nat) (delta : Int) : Users :=
  users.map (fun up => if up.1 = uid then (up.1, up.2 + delta) else up)

/-- A row of the bets table. -/
structure Bet where
  round_id : Nat
  user_id : Nat
  choice : String
  amount : Int
  placed_at : Nat
  deriving DecidableEq, Repr

/-- SELECT 1 FROM bets WHERE round_id=? AND user_id=?. -/
def find_bet : List Bet → Nat → Nat → Option Bet
  | [], _, _ => none
  | b :: rest, r, uid =>
    if b.round_id = r ∧ b.user_id = uid then some b else find_bet rest r uid

/-- place_bet: returns the status string together with the updated users
and bets tables (the transaction's effect; unchanged tables on failure). -/
def place_bet (users : Users) (bets : List Bet) (round_id uid : Nat)
    (choice : String) (amount : Int) (now : Nat) : String × Users × List Bet :=
  match find_bet bets round_id uid with
  | some _ => ("ALREADY", users, bets)
  | none =>
    match find_user users uid with
    | none => ("NO_MONEY", users, bets)
    | some pts =>
      if pts < amount then ("NO_MONEY", users, bets)
      else ("OK", add_points users uid (-amount),
            bets ++ [⟨round_id, uid, choice, amount, now⟩])

/-- fetch_bets: SELECT user_id, choice, amount FROM bets WHERE round_id=?. -/
def fetch_bets (bets : List Bet) (round_id : Nat) : List Bet :=
  bets.filter (fun b => b.round_id = round_id)

/-- clear_bets: DELETE FROM bets WHERE round_id=?. -/
def clear_bets (bets : List Bet) (round_id : Nat) : List Bet :=
  bets.filter (fun b => ¬ b.round_id = round_id)

/-- A row of the road_history table. -/
structure RoadRow where
  round_id : Nat
  result : String
  dragon : String
  tiger : String
  created_at : Nat
  deriving DecidableEq, Repr

/-- insert_road: INSERT OR REPLACE INTO road_history keyed by round_id —
any existing row with the same round_id is replaced. -/
def insert_road (road : List RoadRow) (round_id : Nat)
    (result dragon_txt tiger_txt : String) (now : Nat) : List RoadRow :=
  (road.filter (fun row => ¬ row.round_id = round_id)) ++
    [⟨round_id, result, dragon_txt, tiger_txt, now⟩]

/-- The singleton game_state row. -/
structure RoundState where
  round_id : Nat
  phase : String
  ends_at : Nat
  last_result : Option String
  deriving DecidableEq, Repr

/-- The whole durable store. -/
structure World where
  users : Users
  bets : List Bet
  st : RoundState
  road : List RoadRow
  deriving DecidableEq, Repr

/-- payout = int(amt * PAYOUT[winner]) inside the settlement loop. -/
def payout_amount (amt : Int) (winner : String) : Int :=
  pyInt ((amt : ℚ) * PAYOUT winner)

/-- The crediting for-loop of game_tick: for each fetched bet whose choice
equals the winner, add_points(uid, payout). -/
def settle_credits (users : Users) (bets : List Bet) (winner : String) : Users :=
  bets.foldl
    (fun us b =>
      if b.choice = winner then add_points us b.user_id (payout_amount b.amount winner)
      else us)
    users

/-- game_tick: the scheduler body, with the clock and the two freshly
drawn cards passed explicitly.  Mirrors src/main.py game_tick. -/
def game_tick (w : World) (now : Nat) (dragon tiger : Card) : World :=
  if w.st.phase = "BETTING" ∧ now < w.st.ends_at then w
  else if w.st.phase = "BETTING" then
    { w with st := ⟨w.st.round_id, "CLOSED", now + REVEAL_DELAY_SECONDS, w.st.last_result⟩ }
  else if w.st.phase = "CLOSED" then
    if now < w.st.ends_at then w
    else
      let round_id := w.st.round_id
      let winner := decide dragon tiger
      let dragon_txt := dragon.text
      let tiger_txt := tiger.text
      let users := settle_credits w.users (fetch_bets w.bets round_id) winner
      let road := insert_road w.road round_id winner dragon_txt tiger_txt now
      let bets := clear_bets w.bets round_id
      let last_result :=
        dragon_txt ++ " vs " ++ tiger_txt ++ " => " ++ ((CHOICES winner).getD "")
      { users := users, bets := bets,
        st := ⟨round_id + 1, "BETTING", now + ROUND_SECONDS, some last_result⟩,
        road := road }
  else w

/-- The partial world left behind by a crash inside the CLOSED branch of
game_tick after the crediting loop has run but before insert_road,
clear_bets and set_state: only the users table has been mutated. -/
def crash_after_credits (w : World) (dragon tiger : Card) : World :=
  { w with users := settle_credits w.users (fetch_bets w.bets w.st.round_id) (decide dragon tiger) }

/-- handle_daily: ensure_user then add_points(+DAILY_REWARD). -/
def handle_daily (users : Users) (uid : Nat) : Users :=
  add_points (ensure_user users uid) uid DAILY_REWARD

/-- handle_give's ledger effect once the admin checks pass: rejects a zero
amount, otherwise ensure_user then add_points(amount) — any sign. -/
def handle_give (users : Users) (target : Nat) (amount : Int) : Users :=
  if amount = 0 then users
  else add_points (ensure_user users target) target amount

/-- handle_bet's store effect: ensure_user, then the phase / choice /
amount validations, then place_bet against the current round id.
(ensure_user touches only the users table, so the round state and bets
read below are those of the incoming store.) -/
def handle_bet (w : World) (uid : Nat) (choice : String) (amount : Int)
    (now : Nat) : World :=
  let us1 := ensure_user w.users uid
  if ¬ w.st.phase = "BETTING" then { w with users := us1 }
  else if (CHOICES choice).isNone then { w with users := us1 }
  else if amount ≤ 0 then { w with users := us1 }
  else
    let r := place_bet us1 w.bets w.st.round_id uid choice amount now
    { w with users := r.2.1, bets := r.2.2 }

/-! ### Invariant predicates (formalized claim properties) -/

/-- All balances nonnegative. -/
def NonnegUsers (us : Users) : Prop := ∀ p ∈ us, 0 ≤ p.2

/-- The users table has pairwise distinct keys. -/
def NodupKeys (us : Users) : Prop := (us.map Prod.fst).Nodup

/-- Ledger invariant: unique user rows, all balances nonnegative. -/
def LedgerInv (us : Users) : Prop := NodupKeys us ∧ NonnegUsers us

/-- Store invariant: ledger invariant plus nonnegative bet stakes. -/
def WorldInv (w : World) : Prop := LedgerInv w.users ∧ ∀ b ∈ w.bets, 0 ≤ b.amount

/-- Number of rows for one (round id, player) pair. -/
def pairCount (bets : List Bet) (r uid : Nat) : Nat :=
  (bets.filter (fun b => b.round_id = r ∧ b.user_id = uid)).length

/-- At most one bet row per (round id, player) pair. -/
def AtMostOnePerPair (bets : List Bet) : Prop :=
  ∀ r uid : Nat, pairCount bets r uid ≤ 1

/-- Every bet row belongs to the current round. -/
def BookCurrent (w : World) : Prop := ∀ b ∈ w.bets, b.round_id = w.st.round_id

/-- At most one history row per round id. -/
def AtMostOneRoadPerRound (road : List RoadRow) : Prop :=
  ∀ r : Nat, ((road.filter (fun row => row.round_id = r)).length ≤ 1)

/-! ### Helper lemmas: rationals and floors -/

/-- Rat.floor agrees with the floor of the FloorRing instance. -/
theorem rat_floor_eq (q : ℚ) : q.floor = ⌊q⌋ :=
  (Rat.floor_def' q).trans Rat.floor_def.symm

/-- pyInt of a nonnegative rational is its floor. -/
theorem pyInt_eq_floor (q : ℚ) (h : 0 ≤ q) : pyInt q = ⌊q⌋ := by
  rw [pyInt, if_pos h, rat_floor_eq]

/-! ### Helper lemmas: ledger -/

/-- CLOSED and BETTING are distinct phase tags. -/
theorem closed_ne_betting : ¬ ("CLOSED" = "BETTING") := by decide

/-- find_user returns none exactly when no row has the key. -/
theorem find_user_eq_none_iff (us : Users) (uid : Nat) :
    find_user us uid = none ↔ ∀ p ∈ us, ¬ p.1 = uid := by
  induction us with
  | nil => simp [find_user]
  | cons q rest ih =>
    by_cases h : q.1 = uid
    · simp [find_user, h]
    · simp [find_user, h, ih]

/-- add_points unfolded on a cons cell. -/
theorem add_points_cons (q : Nat × Int) (rest : Users) (uid : Nat) (δ : Int) :
    add_points (q :: rest) uid δ
      = (if q.1 = uid then (q.1, q.2 + δ) else q) :: add_points rest uid δ := rfl

/-- Keys are untouched by add_points. -/
theorem keys_add_points (us : Users) (uid : Nat) (δ : Int) :
    (add_points us uid δ).map Prod.fst = us.map Prod.fst := by
  induction us with
  | nil => rfl
  | cons q rest ih =>
    rw [add_points_cons]
    by_cases h : q.1 = uid
    · rw [if_pos h]; simp [ih]
    · rw [if_neg h]; simp [ih]

/-- Every row of add_points comes from a row of the input. -/
theorem mem_add_points (us : Users) (uid : Nat) (δ : Int) (p : Nat × Int)
    (h : p ∈ add_points us uid δ) :
    ∃ q ∈ us, p = (if q.1 = uid then (q.1, q.2 + δ) else q) := by
  rcases List.mem_map.mp h with ⟨q, hq, rfl⟩
  exact ⟨q, hq, rfl⟩

/-- Looking up the adjusted key after add_points. -/
theorem find_user_add_points_self (us : Users) (uid : Nat) (δ : Int) :
    find_user (add_points us uid δ) uid = (find_user us uid).map (· + δ) := by
  induction us with
  | nil => rfl
  | cons q rest ih =>
    rw [add_points_cons]
    by_cases h : q.1 = uid
    · rw [if_pos h]; simp [find_user, h]
    · rw [if_neg h]; simp [find_user, h, ih]

/-- Looking up a different key after add_points. -/
theorem find_user_add_points_ne (us : Users) (uid v : Nat) (δ : Int)
    (h : ¬ v = uid) :
    find_user (add_points us uid δ) v = find_user us v := by
  induction us with
  | nil => rfl
  | cons q rest ih =>
    rw [add_points_cons]
    by_cases hq : q.1 = v
    · have hq2 : ¬ q.1 = uid := fun hc => h (hq ▸ hc ▸ rfl)
      rw [if_neg hq2]
      simp [find_user, hq]
    · by_cases hq2 : q.1 = uid
      · rw [if_pos hq2]
        have : ¬ uid = v := fun hc => h hc.symm
        simp [find_user, hq2, this, hq, ih]
      · rw [if_neg hq2]
        simp [find_user, hq, ih]

/-- get_points after add_points on an existing user. -/
theorem get_points_add_points_self (us : Users) (uid : Nat) (δ : Int)
    (h : (find_user us uid).isSome) :
    get_points (add_points us uid δ) uid = get_points us uid + δ := by
  rcases Option.isSome_iff_exists.mp h with ⟨v, hv⟩
  simp [get_points, find_user_add_points_self, hv]

/-- get_points of other users after add_points. -/
theorem get_points_add_points_ne (us : Users) (uid v : Nat) (δ : Int)
    (h : ¬ v = uid) :
    get_points (add_points us uid δ) v = get_points us v := by
  simp [get_points, find_user_add_points_ne us uid v δ h]

/-- With distinct keys, a member row is what find_user returns. -/
theorem find_user_of_mem (us : Users) (q : Nat × Int)
    (hnd : NodupKeys us) (hq : q ∈ us) : find_user us q.1 = some q.2 := by
  induction us with
  | nil => cases hq
  | cons p rest ih =>
    rcases List.mem_cons.mp hq with h | h
    · subst h; simp [find_user]
    · have hnd' : NodupKeys rest := (List.nodup_cons.mp hnd).2
      have hne : ¬ p.1 = q.1 := by
        intro he
        exact (List.nodup_cons.mp hnd).1 (he ▸ List.mem_map_of_mem Prod.fst h)
      simp [find_user, hne, ih hnd' h]

/-- add_points preserves key distinctness. -/
theorem nodup_add_points (us : Users) (uid : Nat) (δ : Int)
    (h : NodupKeys us) : NodupKeys (add_points us uid δ) := by
  unfold NodupKeys
  rw [keys_add_points]
  exact h

/-- add_points with a nonnegative delta keeps all balances nonnegative. -/
theorem nonneg_add_points_of_nonneg (us : Users) (uid : Nat) (δ : Int)
    (h : NonnegUsers us) (hδ : 0 ≤ δ) : NonnegUsers (add_points us uid δ) := by
  intro p hp
  rcases mem_add_points us uid δ p hp with ⟨q, hq, rfl⟩
  by_cases hk : q.1 = uid
  · simpa [hk] using add_nonneg (h q hq) hδ
  · simpa [hk] using h q hq

/-- add_points keeps balances nonnegative when the (unique) affected row
stays nonnegative. -/
theorem nonneg_add_points_of_le (us : Users) (uid : Nat) (δ : Int)
    (h : NonnegUsers us) (hnd : NodupKeys us)
    (hv : ∀ v, find_user us uid = some v → 0 ≤ v + δ) :
    NonnegUsers (add_points us uid δ) := by
  intro p hp
  rcases mem_add_points us uid δ p hp with ⟨q, hq, rfl⟩
  by_cases hk : q.1 = uid
  · have := find_user_of_mem us q hnd hq
    rw [hk] at this
    simpa [hk] using hv q.2 this
  · simpa [hk] using h q hq

/-- ensure_user preserves key distinctness. -/
theorem nodup_ensure_user (us : Users) (uid : Nat)
    (h : NodupKeys us) : NodupKeys (ensure_user us uid) := by
  unfold ensure_user
  cases hf : find_user us uid with
  | some v => exact h
  | none =>
    have hnotin : uid ∉ us.map Prod.fst := by
      intro hmem
      rcases List.mem_map.mp hmem with ⟨q, hq, hfst⟩
      exact ((find_user_eq_none_iff us uid).mp hf q hq) hfst
    have hout : (us.map Prod.fst ++ [uid]).Nodup := by
      refine List.Nodup.append h (List.nodup_singleton _) ?_
      intro a ha hmem
      rw [List.mem_singleton] at hmem
      exact hnotin (hmem ▸ ha)
    unfold NodupKeys
    rw [List.map_append]
    simpa using hout

/-- ensure_user keeps all balances nonnegative. -/
theorem nonneg_ensure_user (us : Users) (uid : Nat)
    (h : NonnegUsers us) : NonnegUsers (ensure_user us uid) := by
  unfold ensure_user
  cases hf : find_user us uid with
  | some v => exact h
  | none =>
    intro p hp
    rcases List.mem_append.mp hp with hin | hin
    · exact h p hin
    · simp only [List.mem_singleton] at hin
      subst hin
      norm_num [STARTING_POINTS]

/-! ### Helper lemmas: bets, payouts, settlement -/

/-- find_bet returns none exactly when no row matches the pair. -/
theorem find_bet_eq_none_iff (bets : List Bet) (r uid : Nat) :
    find_bet bets r uid = none ↔ ∀ b ∈ bets, ¬ (b.round_id = r ∧ b.user_id = uid) := by
  induction bets with
  | nil => simp [find_bet]
  | cons b rest ih =>
    by_cases h : b.round_id = r ∧ b.user_id = uid
    · simp [find_bet, h]
    · simp only [find_bet, if_neg h, ih, List.mem_cons]
      constructor
      · rintro hall b' (rfl | hb')
        · exact h
        · exact hall b' hb'
      · intro hall b' hb'
        exact hall b' (Or.inr hb')

/-- All payout multipliers are nonnegative. -/
theorem PAYOUT_nonneg (c : String) : 0 ≤ PAYOUT c := by
  unfold PAYOUT
  split <;> norm_num

/-- Payout of a nonnegative stake is nonnegative. -/
theorem payout_amount_nonneg (amt : Int) (c : String) (h : 0 ≤ amt) :
    0 ≤ payout_amount amt c := by
  have hq : (0:ℚ) ≤ (amt:ℚ) * PAYOUT c :=
    mul_nonneg (by exact_mod_cast h) (PAYOUT_nonneg c)
  rw [payout_amount, pyInt_eq_floor _ hq]
  exact Int.le_floor.mpr (by exact_mod_cast hq)

/-- settle_credits on an empty bet list does nothing. -/
theorem settle_credits_nil (us : Users) (winner : String) :
    settle_credits us [] winner = us := rfl

/-- settle_credits unfolded on a cons cell. -/
theorem settle_credits_cons (us : Users) (b : Bet) (rest : List Bet) (winner : String) :
    settle_credits us (b :: rest) winner
      = settle_credits
          (if b.choice = winner then add_points us b.user_id (payout_amount b.amount winner)
           else us)
          rest winner := rfl

/-- A single winning bet is credited through add_points. -/
theorem settle_credits_single_win (us : Users) (b : Bet) (winner : String)
    (hc : b.choice = winner) :
    settle_credits us [b] winner = add_points us b.user_id (payout_amount b.amount winner) := by
  rw [settle_credits_cons, if_pos hc, settle_credits_nil]

/-- A single losing bet causes no ledger action. -/
theorem settle_credits_single_lose (us : Users) (b : Bet) (winner : String)
    (hc : ¬ b.choice = winner) :
    settle_credits us [b] winner = us := by
  rw [settle_credits_cons, if_neg hc, settle_credits_nil]

/-- settle_credits keeps balances nonnegative when stakes are nonnegative. -/
theorem nonneg_settle_credits (bets : List Bet) (us : Users) (winner : String)
    (h : NonnegUsers us) (hb : ∀ b ∈ bets, 0 ≤ b.amount) :
    NonnegUsers (settle_credits us bets winner) := by
  induction bets generalizing us with
  | nil => exact h
  | cons b rest ih =>
    rw [settle_credits_cons]
    by_cases hc : b.choice = winner
    · rw [if_pos hc]
      exact ih _
        (nonneg_add_points_of_nonneg _ _ _ h
          (payout_amount_nonneg _ _ (hb b (List.mem_cons_self b rest))))
        (fun b' h' => hb b' (List.mem_cons_of_mem _ h'))
    · rw [if_neg hc]
      exact ih _ h (fun b' h' => hb b' (List.mem_cons_of_mem _ h'))

/-- settle_credits preserves key distinctness. -/
theorem nodup_settle_credits (bets : List Bet) (us : Users) (winner : String)
    (h : NodupKeys us) : NodupKeys (settle_credits us bets winner) := by
  induction bets generalizing us with
  | nil => exact h
  | cons b rest ih =>
    rw [settle_credits_cons]
    by_cases hc : b.choice = winner
    · rw [if_pos hc]
      exact ih _ (nodup_add_points _ _ _ h)
    · rw [if_neg hc]
      exact ih _ h

/-- Membership in clear_bets. -/
theorem mem_clear_bets (bets : List Bet) (r : Nat) (b : Bet) :
    b ∈ clear_bets bets r ↔ b ∈ bets ∧ ¬ b.round_id = r := by
  simp [clear_bets, List.mem_filter]

/-- Membership in fetch_bets. -/
theorem mem_fetch_bets (bets : List Bet) (r : Nat) (b : Bet) :
    b ∈ fetch_bets bets r ↔ b ∈ bets ∧ b.round_id = r := by
  simp [fetch_bets, List.mem_filter]

/-- Fetching a round's bets after clearing that round yields nothing. -/
theorem fetch_bets_clear_bets (bets : List Bet) (r : Nat) :
    fetch_bets (clear_bets bets r) r = [] := by
  rw [List.eq_nil_iff_forall_not_mem]
  intro b hb
  rw [mem_fetch_bets] at hb
  exact ((mem_clear_bets bets r b).mp hb.1).2 hb.2

/-! ### Helper lemmas: game_tick branch shapes -/

/-- A tick in BETTING before the deadline is a no-op. -/
theorem game_tick_noop_betting (w : World) (now : Nat) (d t : Card)
    (hph : w.st.phase = "BETTING") (hlt : now < w.st.ends_at) :
    game_tick w now d t = w := by
  unfold game_tick
  rw [if_pos ⟨hph, hlt⟩]

/-- A due tick in BETTING closes the round in place. -/
theorem game_tick_close (w : World) (now : Nat) (d t : Card)
    (hph : w.st.phase = "BETTING") (hge : ¬ now < w.st.ends_at) :
    game_tick w now d t
      = { w with st := ⟨w.st.round_id, "CLOSED", now + REVEAL_DELAY_SECONDS, w.st.last_result⟩ } := by
  unfold game_tick
  rw [if_neg (fun hc => hge hc.2), if_pos hph]

/-- A tick in CLOSED before the reveal deadline is a no-op. -/
theorem game_tick_noop_closed (w : World) (now : Nat) (d t : Card)
    (hph : w.st.phase = "CLOSED") (hlt : now < w.st.ends_at) :
    game_tick w now d t = w := by
  have hnb : ¬ w.st.phase = "BETTING" := by rw [hph]; exact closed_ne_betting
  unfold game_tick
  rw [if_neg (fun hc => hnb hc.1), if_neg hnb, if_pos hph, if_pos hlt]

/-- A due tick in CLOSED settles and opens the next round. -/
theorem game_tick_settle (w : World) (now : Nat) (d t : Card)
    (hph : w.st.phase = "CLOSED") (hge : ¬ now < w.st.ends_at) :
    game_tick w now d t
      = { users := settle_credits w.users (fetch_bets w.bets w.st.round_id) (decide d t),
          bets := clear_bets w.bets w.st.round_id,
          st := ⟨w.st.round_id + 1, "BETTING", now + ROUND_SECONDS,
                 some (d.text ++ " vs " ++ t.text ++ " => " ++ ((CHOICES (decide d t)).getD ""))⟩,
          road := insert_road w.road w.st.round_id (decide d t) d.text t.text now } := by
  have hnb : ¬ w.st.phase = "BETTING" := by rw [hph]; exact closed_ne_betting
  unfold game_tick
  rw [if_neg (fun hc => hnb hc.1), if_neg hnb, if_pos hph, if_neg hge]

/-- A tick whose phase is neither BETTING nor CLOSED changes nothing. -/
theorem game_tick_other (w : World) (now : Nat) (d t : Card)
    (h1 : ¬ w.st.phase = "BETTING") (h2 : ¬ w.st.phase = "CLOSED") :
    game_tick w now d t = w := by
  unfold game_tick
  rw [if_neg (fun hc => h1 hc.1), if_neg h1, if_neg h2]

/-- handle_bet when any validation fails: only ensure_user happened. -/
theorem handle_bet_fail (w : World) (uid : Nat) (choice : String) (amount : Int)
    (now : Nat)
    (h : ¬ w.st.phase = "BETTING" ∨ (CHOICES choice).isNone = true ∨ amount ≤ 0) :
    handle_bet w uid choice amount now = { w with users := ensure_user w.users uid } := by
  unfold handle_bet
  by_cases h1 : ¬ w.st.phase = "BETTING"
  · rw [if_pos h1]
  · rw [if_neg h1]
    by_cases h2 : (CHOICES choice).isNone = true
    · rw [if_pos h2]
    · rw [if_neg h2]
      rcases h with h | h | h
      · exact absurd h h1
      · exact absurd h h2
      · rw [if_pos h]

/-- handle_bet when all validations pass: the place_bet transaction runs
against the ensured users table and the current round id. -/
theorem handle_bet_success_shape (w : World) (uid : Nat) (choice : String)
    (amount : Int) (now : Nat) (h1 : w.st.phase = "BETTING")
    (h2 : ¬ (CHOICES choice).isNone = true) (h3 : ¬ amount ≤ 0) :
    handle_bet w uid choice amount now
      = { w with
          users := (place_bet (ensure_user w.users uid) w.bets w.st.round_id uid
              choice amount now).2.1,
          bets := (place_bet (ensure_user w.users uid) w.bets w.st.round_id uid
              choice amount now).2.2 } := by
  unfold handle_bet
  rw [if_neg (not_not_intro h1), if_neg h2, if_neg h3]

/-! ### Helper lemmas: place_bet and the bet book -/

/-- The row found by find_bet is a matching member. -/
theorem find_bet_eq_some (bets : List Bet) (r uid : Nat) (b : Bet)
    (h : find_bet bets r uid = some b) :
    b ∈ bets ∧ b.round_id = r ∧ b.user_id = uid := by
  induction bets with
  | nil => simp [find_bet] at h
  | cons b0 rest ih =>
    by_cases hm : b0.round_id = r ∧ b0.user_id = uid
    · rw [find_bet, if_pos hm] at h
      cases h
      exact ⟨List.mem_cons_self _ _, hm⟩
    · rw [find_bet, if_neg hm] at h
      rcases ih h with ⟨h1, h2⟩
      exact ⟨List.mem_cons_of_mem _ h1, h2⟩

/-- find_bet is some exactly when a matching row exists. -/
theorem find_bet_isSome_iff (bets : List Bet) (r uid : Nat) :
    (find_bet bets r uid).isSome ↔ ∃ b ∈ bets, b.round_id = r ∧ b.user_id = uid := by
  constructor
  · intro h
    rcases Option.isSome_iff_exists.mp h with ⟨b, hb⟩
    rcases find_bet_eq_some bets r uid b hb with ⟨h1, h2⟩
    exact ⟨b, h1, h2⟩
  · rintro ⟨b, hb, hmatch⟩
    rcases hfb : find_bet bets r uid with _ | b'
    · exact absurd hmatch ((find_bet_eq_none_iff bets r uid).mp hfb b hb)
    · simp

/-- The three outcomes of place_bet and their effects. -/
theorem place_bet_cases (us : Users) (bets : List Bet) (r uid : Nat)
    (c : String) (a : Int) (now : Nat) :
    (place_bet us bets r uid c a now = ("ALREADY", us, bets) ∧ (find_bet bets r uid).isSome)
  ∨ (place_bet us bets r uid c a now = ("NO_MONEY", us, bets))
  ∨ (place_bet us bets r uid c a now
       = ("OK", add_points us uid (-a), bets ++ [⟨r, uid, c, a, now⟩])
     ∧ find_bet bets r uid = none
     ∧ ∃ pts, find_user us uid = some pts ∧ a ≤ pts) := by
  rcases hfb : find_bet bets r uid with _ | b
  · rcases hfu : find_user us uid with _ | pts
    · right; left
      simp [place_bet, hfb, hfu]
    · by_cases hlt : pts < a
      · right; left
        simp [place_bet, hfb, hfu, hlt]
      · right; right
        refine ⟨?_, rfl, pts, rfl, le_of_not_lt hlt⟩
        simp [place_bet, hfb, hfu, hlt]
  · left
    refine ⟨?_, by simp⟩
    simp [place_bet, hfb]

/-- place_bet with an existing row for the pair returns ALREADY unchanged. -/
theorem place_bet_already (us : Users) (bets : List Bet) (r uid : Nat)
    (c : String) (a : Int) (now : Nat) (h : (find_bet bets r uid).isSome) :
    place_bet us bets r uid c a now = ("ALREADY", us, bets) := by
  rcases Option.isSome_iff_exists.mp h with ⟨b, hb⟩
  simp [place_bet, hb]

/-- pairCount distributes over append. -/
theorem pairCount_append (l1 l2 : List Bet) (r uid : Nat) :
    pairCount (l1 ++ l2) r uid = pairCount l1 r uid + pairCount l2 r uid := by
  simp [pairCount, List.filter_append]

/-- A pair with no find_bet hit has count zero. -/
theorem pairCount_eq_zero_of_none (bets : List Bet) (r uid : Nat)
    (h : find_bet bets r uid = none) : pairCount bets r uid = 0 := by
  rw [pairCount, List.length_eq_zero, List.eq_nil_iff_forall_not_mem]
  intro b hb
  rw [List.mem_filter] at hb
  have := (find_bet_eq_none_iff bets r uid).mp h b hb.1
  simp only [decide_eq_true_eq] at hb
  exact this hb.2

/-- Count of a fresh row at its own pair. -/
theorem pairCount_single_self (b : Bet) : pairCount [b] b.round_id b.user_id = 1 := by
  simp [pairCount, List.filter]

/-- Count of a fresh row at any other pair. -/
theorem pairCount_single_other (b : Bet) (r uid : Nat)
    (h : ¬ (b.round_id = r ∧ b.user_id = uid)) : pairCount [b] r uid = 0 := by
  simp [pairCount, List.filter, h]

/-- pairCount of a filtered book never exceeds the original's. -/
theorem pairCount_le_of_sublist (l1 l2 : List Bet) (r uid : Nat)
    (h : l1.Sublist l2) : pairCount l1 r uid ≤ pairCount l2 r uid :=
  (h.filter _).length_le

/-! ### Helper lemmas: road history -/

/-- Rows of other rounds survive insert_road. -/
theorem mem_insert_road_of_ne (road : List RoadRow) (r : Nat)
    (res dtx ttx : String) (now : Nat) (row : RoadRow)
    (hrow : row ∈ road) (hne : ¬ row.round_id = r) :
    row ∈ insert_road road r res dtx ttx now := by
  rw [insert_road, List.mem_append, List.mem_filter]
  exact Or.inl ⟨hrow, by simpa using hne⟩

/-- Every row of insert_road is an old row or carries the written key. -/
theorem mem_insert_road_cases (road : List RoadRow) (r : Nat)
    (res dtx ttx : String) (now : Nat) (row : RoadRow)
    (h : row ∈ insert_road road r res dtx ttx now) :
    row ∈ road ∨ row.round_id = r := by
  rw [insert_road, List.mem_append] at h
  rcases h with h | h
  · exact Or.inl (List.mem_filter.mp h).1
  · rw [List.mem_singleton] at h
    subst h
    exact Or.inr rfl

/-- insert_road keeps at most one row per round id. -/
theorem atMostOne_insert_road (road : List RoadRow) (r : Nat)
    (res dtx ttx : String) (now : Nat) (h : AtMostOneRoadPerRound road) :
    AtMostOneRoadPerRound (insert_road road r res dtx ttx now) := by
  intro r'
  rw [insert_road, List.filter_append, List.length_append]
  by_cases hr : r' = r
  · subst hr
    have h1 : ((road.filter (fun row => ¬ row.round_id = r')).filter
        (fun row => row.round_id = r')) = [] := by
      rw [List.eq_nil_iff_forall_not_mem]
      intro row hrow
      rw [List.mem_filter] at hrow
      have h2 := (List.mem_filter.mp hrow.1).2
      simp only [decide_eq_true_eq] at hrow h2
      exact h2 hrow.2
    rw [h1]
    simp [List.filter]
  · have h2 : (([⟨r, res, dtx, ttx, now⟩] : List RoadRow).filter
        (fun row => row.round_id = r')) = [] := by
      have hne : ¬ r = r' := fun hc => hr hc.symm
      simp [List.filter, hne]
    rw [h2]
    have hsub : (road.filter (fun row => ¬ row.round_id = r)).Sublist road :=
      List.filter_sublist road
    calc ((road.filter (fun row => ¬ row.round_id = r)).filter
            (fun row => row.round_id = r')).length + ([] : List RoadRow).length
        = ((road.filter (fun row => ¬ row.round_id = r)).filter
            (fun row => row.round_id = r')).length := by simp
      _ ≤ (road.filter (fun row => row.round_id = r')).length := (hsub.filter _).length_le
      _ ≤ 1 := h r'

/-! ### Claim theorems -/

/-- Claim C6: for every pair of drawn cards the outcome decision depends
only on rank under the order A=1 through K=13 (suit ignored): the side
with the strictly higher rank wins ("D" or "T"), and equal ranks yield
the third, distinct tie outcome "I". -/
theorem decide_rank_only :
    (∀ d t : Card, decide d t =
        (if RANK_VALUE d.rank > RANK_VALUE t.rank then "D"
         else if RANK_VALUE t.rank > RANK_VALUE d.rank then "T" else "I"))
  ∧ (∀ r1 s1 s1' r2 s2 s2' : String,
        decide ⟨r1, s1⟩ ⟨r2, s2⟩ = decide ⟨r1, s1'⟩ ⟨r2, s2'⟩)
  ∧ RANKS.map RANK_VALUE = [1, 2, 3, 4, 5, 6, 7, 8, 9, 10, 11, 12, 13]
  ∧ ¬ "I" = "D" ∧ ¬ "I" = "T" ∧ ¬ "D" = "T" :=
  ⟨fun _ _ => rfl, fun _ _ _ _ _ _ => rfl, by decide, by decide, by decide, by decide⟩

/-- Claim C7: on every CLOSED → BETTING transition the round id increases
by exactly 1; the phase alternates BETTING, CLOSED, BETTING, … (a due
BETTING tick yields CLOSED with the same round id, a due CLOSED tick
yields BETTING with round id + 1); ticks whose deadline has not elapsed
change nothing. -/
theorem round_id_and_phase_progression (w : World) (now : Nat) (d t : Card) :
    (w.st.phase = "BETTING" → now < w.st.ends_at → game_tick w now d t = w)
  ∧ (w.st.phase = "CLOSED" → now < w.st.ends_at → game_tick w now d t = w)
  ∧ (w.st.phase = "BETTING" → ¬ now < w.st.ends_at →
       (game_tick w now d t).st.phase = "CLOSED"
     ∧ (game_tick w now d t).st.round_id = w.st.round_id)
  ∧ (w.st.phase = "CLOSED" → ¬ now < w.st.ends_at →
       (game_tick w now d t).st.phase = "BETTING"
     ∧ (game_tick w now d t).st.round_id = w.st.round_id + 1) := by
  refine ⟨game_tick_noop_betting w now d t, game_tick_noop_closed w now d t, ?_, ?_⟩
  · intro hph hge
    rw [game_tick_close w now d t hph hge]
    exact ⟨rfl, rfl⟩
  · intro hph hge
    rw [game_tick_settle w now d t hph hge]
    exact ⟨rfl, rfl⟩

/-- Witness for C7 at concrete states: an early tick in each phase is a
no-op; a due BETTING tick closes round 5 as round 5; a due CLOSED tick
opens round 6. -/
theorem round_id_and_phase_progression_witness :
    game_tick ⟨[], [], ⟨5, "BETTING", 100, none⟩, []⟩ 99 ⟨"A", "S"⟩ ⟨"K", "H"⟩
      = ⟨[], [], ⟨5, "BETTING", 100, none⟩, []⟩
  ∧ game_tick ⟨[], [], ⟨5, "CLOSED", 100, none⟩, []⟩ 99 ⟨"A", "S"⟩ ⟨"K", "H"⟩
      = ⟨[], [], ⟨5, "CLOSED", 100, none⟩, []⟩
  ∧ ((game_tick ⟨[], [], ⟨5, "BETTING", 100, none⟩, []⟩ 100 ⟨"A", "S"⟩ ⟨"K", "H"⟩).st.phase
        = "CLOSED"
     ∧ (game_tick ⟨[], [], ⟨5, "BETTING", 100, none⟩, []⟩ 100 ⟨"A", "S"⟩ ⟨"K", "H"⟩).st.round_id
        = 5)
  ∧ ((game_tick ⟨[], [], ⟨5, "CLOSED", 100, none⟩, []⟩ 100 ⟨"A", "S"⟩ ⟨"K", "H"⟩).st.phase
        = "BETTING"
     ∧ (game_tick ⟨[], [], ⟨5, "CLOSED", 100, none⟩, []⟩ 100 ⟨"A", "S"⟩ ⟨"K", "H"⟩).st.round_id
        = 5 + 1) :=
  ⟨(round_id_and_phase_progression _ 99 _ _).1 rfl (by decide),
   (round_id_and_phase_progression _ 99 _ _).2.1 rfl (by decide),
   (round_id_and_phase_progression _ 100 _ _).2.2.1 rfl (by decide),
   (round_id_and_phase_progression _ 100 _ _).2.2.2 rfl (by decide)⟩

/-- Claim C8: the BETTING → CLOSED transition fires exactly when the
deadline has elapsed while in BETTING (otherwise the tick is a no-op),
sets the new deadline to now plus the reveal delay, keeps the round id and
last result, and mutates neither the ledger, the bet book nor the history. -/
theorem betting_close_frame (w : World) (now : Nat) (d t : Card) :
    (w.st.phase = "BETTING" → now < w.st.ends_at → game_tick w now d t = w)
  ∧ (w.st.phase = "BETTING" → ¬ now < w.st.ends_at →
       (game_tick w now d t).st
          = ⟨w.st.round_id, "CLOSED", now + REVEAL_DELAY_SECONDS, w.st.last_result⟩
     ∧ (game_tick w now d t).users = w.users
     ∧ (game_tick w now d t).bets = w.bets
     ∧ (game_tick w now d t).road = w.road
     ∧ ∀ uid : Nat, get_points (game_tick w now d t).users uid = get_points w.users uid) := by
  refine ⟨game_tick_noop_betting w now d t, ?_⟩
  intro hph hge
  rw [game_tick_close w now d t hph hge]
  exact ⟨rfl, rfl, rfl, rfl, fun _ => rfl⟩

/-- Witness for C8: a due BETTING tick at a concrete state closes the
round in place without touching any table. -/
theorem betting_close_frame_witness :
    (game_tick ⟨[(1, 7)], [⟨5, 1, "D", 3, 2⟩], ⟨5, "BETTING", 100, some "x"⟩, []⟩ 101
        ⟨"A", "S"⟩ ⟨"K", "H"⟩).st
      = ⟨5, "CLOSED", 101 + REVEAL_DELAY_SECONDS, some "x"⟩
  ∧ (game_tick ⟨[(1, 7)], [⟨5, 1, "D", 3, 2⟩], ⟨5, "BETTING", 100, some "x"⟩, []⟩ 101
        ⟨"A", "S"⟩ ⟨"K", "H"⟩).users = [(1, 7)]
  ∧ (game_tick ⟨[(1, 7)], [⟨5, 1, "D", 3, 2⟩], ⟨5, "BETTING", 100, some "x"⟩, []⟩ 101
        ⟨"A", "S"⟩ ⟨"K", "H"⟩).bets = [⟨5, 1, "D", 3, 2⟩]
  ∧ (game_tick ⟨[(1, 7)], [⟨5, 1, "D", 3, 2⟩], ⟨5, "BETTING", 100, some "x"⟩, []⟩ 101
        ⟨"A", "S"⟩ ⟨"K", "H"⟩).road = [] := by
  have h := (betting_close_frame
      ⟨[(1, 7)], [⟨5, 1, "D", 3, 2⟩], ⟨5, "BETTING", 100, some "x"⟩, []⟩ 101
      ⟨"A", "S"⟩ ⟨"K", "H"⟩).2 rfl (by decide)
  exact ⟨h.1, h.2.1, h.2.2.1, h.2.2.2.1⟩

/-- Claim C5: a settled winning bet is credited exactly
floor(amount × payoutMultiplier[winningSide]) with the stake-inclusive
multipliers 2 for D and T and 9 for the tie, and a losing bet causes no
further ledger action. -/
theorem settlement_pays_floor_multiplier :
    PAYOUT "D" = 2 ∧ PAYOUT "T" = 2 ∧ PAYOUT "I" = 9
  ∧ (∀ (amt : Int) (winner : String), 0 ≤ amt →
       payout_amount amt winner = ⌊(amt : ℚ) * PAYOUT winner⌋)
  ∧ (∀ (us : Users) (b : Bet) (winner : String), ¬ b.choice = winner →
       settle_credits us [b] winner = us)
  ∧ (∀ (us : Users) (b : Bet) (winner : String), b.choice = winner →
       (find_user us b.user_id).isSome →
       get_points (settle_credits us [b] winner) b.user_id
         = get_points us b.user_id + payout_amount b.amount winner) := by
  refine ⟨rfl, rfl, rfl, ?_, ?_, ?_⟩
  · intro amt winner h
    exact pyInt_eq_floor _ (mul_nonneg (by exact_mod_cast h) (PAYOUT_nonneg winner))
  · intro us b winner hc
    exact settle_credits_single_lose us b winner hc
  · intro us b winner hc hsome
    rw [settle_credits_single_win us b winner hc]
    exact get_points_add_points_self us b.user_id _ hsome

/-- Witness for C5 at the spec scenario: a 1,000 bet on "D" pays 2,000,
taking a post-debit balance of 9,000 to 11,000, while the same stake on a
losing side changes nothing. -/
theorem settlement_pays_floor_multiplier_witness :
    payout_amount 1000 "D" = ⌊((1000 : Int) : ℚ) * PAYOUT "D"⌋
  ∧ get_points (settle_credits [(7, 9000)] [⟨5, 7, "D", 1000, 50⟩] "D") 7 = 11000
  ∧ settle_credits [(7, 9000)] [⟨5, 7, "T", 1000, 50⟩] "D" = [(7, 9000)] := by
  have h := settlement_pays_floor_multiplier
  refine ⟨h.2.2.2.1 1000 "D" (by decide), ?_,
    h.2.2.2.2.1 [(7, 9000)] ⟨5, 7, "T", 1000, 50⟩ "D" (by decide)⟩
  rw [h.2.2.2.2.2 [(7, 9000)] ⟨5, 7, "D", 1000, 50⟩ "D" rfl (by decide)]
  have hpa : payout_amount 1000 "D" = 2000 := by
    rw [h.2.2.2.1 1000 "D" (by decide), h.1]
    norm_num
  rw [hpa]
  decide

/-- Claim C4: at most one bet row ever exists per (round id, player) pair;
a second place_bet by the same player in the same round returns ALREADY
and leaves both the bet book and the balance unchanged. -/
theorem at_most_one_bet_per_pair (us : Users) (bets : List Bet) (r uid : Nat)
    (c c0 : String) (a a0 : Int) (now now0 : Nat) :
    ((find_bet bets r uid).isSome →
        place_bet us bets r uid c a now = ("ALREADY", us, bets))
  ∧ (AtMostOnePerPair bets → AtMostOnePerPair (place_bet us bets r uid c a now).2.2)
  ∧ (AtMostOnePerPair bets → AtMostOnePerPair (clear_bets bets r))
  ∧ ((place_bet us bets r uid c0 a0 now0).1 = "OK" →
        place_bet (place_bet us bets r uid c0 a0 now0).2.1
            (place_bet us bets r uid c0 a0 now0).2.2 r uid c a now
          = ("ALREADY", (place_bet us bets r uid c0 a0 now0).2.1,
             (place_bet us bets r uid c0 a0 now0).2.2)) := by
  refine ⟨place_bet_already us bets r uid c a now, ?_, ?_, ?_⟩
  · intro hone
    rcases place_bet_cases us bets r uid c a now with ⟨heq, _⟩ | heq | ⟨heq, hnone, _⟩
    · rw [heq]; exact hone
    · rw [heq]; exact hone
    · rw [heq]
      intro r' uid'
      show pairCount (bets ++ [⟨r, uid, c, a, now⟩]) r' uid' ≤ 1
      rw [pairCount_append]
      by_cases hp : r' = r ∧ uid' = uid
      · have hz : pairCount bets r' uid' = 0 := by
          rw [hp.1, hp.2]
          exact pairCount_eq_zero_of_none bets r uid hnone
        have h1 : pairCount [(⟨r, uid, c, a, now⟩ : Bet)] r' uid' = 1 := by
          rw [hp.1, hp.2]
          simp [pairCount, List.filter]
        rw [hz, h1]
      · have h0 : pairCount [(⟨r, uid, c, a, now⟩ : Bet)] r' uid' = 0 := by
          apply pairCount_single_other
          intro hc2
          exact hp ⟨hc2.1.symm ▸ rfl, hc2.2.symm ▸ rfl⟩
        rw [h0]
        have hb := hone r' uid'
        omega
  · intro hone r' uid'
    have hsub : (clear_bets bets r).Sublist bets := List.filter_sublist bets
    exact le_trans (pairCount_le_of_sublist _ _ r' uid' hsub) (hone r' uid')
  · intro hok
    rcases place_bet_cases us bets r uid c0 a0 now0 with ⟨heq, _⟩ | heq | ⟨heq, _, _⟩
    · rw [heq] at hok
      exact absurd (show ("ALREADY" : String) = "OK" from hok) (by decide)
    · rw [heq] at hok
      exact absurd (show ("NO_MONEY" : String) = "OK" from hok) (by decide)
    · rw [heq]
      apply place_bet_already
      rw [find_bet_isSome_iff]
      exact ⟨⟨r, uid, c0, a0, now0⟩, List.mem_append_right _ (List.mem_singleton_self _), rfl, rfl⟩

/-- Witness for C4 at the spec scenario: player 1 with 10,000 points bets
1,000 on "D" in round 5; the balance drops to 9,000, and a second attempt
returns ALREADY leaving book and balance unchanged. -/
theorem at_most_one_bet_per_pair_witness :
    place_bet [(1, 9000)] [⟨5, 1, "D", 1000, 50⟩] 5 1 "D" 1000 60
      = ("ALREADY", [(1, 9000)], [⟨5, 1, "D", 1000, 50⟩])
  ∧ AtMostOnePerPair ((place_bet [(1, 10000)] [] 5 1 "D" 1000 50).2.2)
  ∧ (place_bet (place_bet [(1, 10000)] [] 5 1 "D" 1000 50).2.1
        (place_bet [(1, 10000)] [] 5 1 "D" 1000 50).2.2 5 1 "T" 200 60
      = ("ALREADY", (place_bet [(1, 10000)] [] 5 1 "D" 1000 50).2.1,
         (place_bet [(1, 10000)] [] 5 1 "D" 1000 50).2.2)) :=
  ⟨(at_most_one_bet_per_pair [(1, 9000)] [⟨5, 1, "D", 1000, 50⟩] 5 1 "D" "D" 1000 1000 60 50).1
      (by decide),
   (at_most_one_bet_per_pair [(1, 10000)] [] 5 1 "D" "D" 1000 1000 50 50).2.1
      (fun r uid => by simp [pairCount, List.filter]),
   (at_most_one_bet_per_pair [(1, 10000)] [] 5 1 "T" "D" 200 1000 60 50).2.2.2
      (by decide)⟩

/-- Counterexample to claim C3 as stated: place_bet itself never checks
amount > 0 — a bet of amount 0 (here by a player holding 10 points)
returns OK and inserts a bet row, even though 0 > 0 fails. -/
theorem place_bet_zero_amount_cex :
    (place_bet [(1, 10)] [] 5 1 "D" 0 7).1 = "OK"
  ∧ (place_bet [(1, 10)] [] 5 1 "D" 0 7).2.2 = [⟨5, 1, "D", 0, 7⟩]
  ∧ ¬ ((0 : Int) > 0) := by decide

/-- Claim C3 (amended): place_bet succeeds exactly when no bet row exists
for the pair, the player has a row, and amount ≤ the current balance (the
amount > 0 precondition is enforced by the .bet command handler, not by
place_bet); on success the balance is debited by exactly amount and one
bet row is appended; on ALREADY or NO_MONEY nothing is mutated. -/
theorem place_bet_atomic_spec (us : Users) (bets : List Bet) (r uid : Nat)
    (c : String) (a : Int) (now : Nat) :
    ((place_bet us bets r uid c a now).1 = "ALREADY"
       ∨ (place_bet us bets r uid c a now).1 = "NO_MONEY" →
        (place_bet us bets r uid c a now).2.1 = us
      ∧ (place_bet us bets r uid c a now).2.2 = bets)
  ∧ ((place_bet us bets r uid c a now).1 = "ALREADY" ↔ (find_bet bets r uid).isSome)
  ∧ ((place_bet us bets r uid c a now).1 = "OK" ↔
        find_bet bets r uid = none ∧ (find_user us uid).isSome
      ∧ a ≤ get_points us uid)
  ∧ ((place_bet us bets r uid c a now).1 = "OK" →
        (place_bet us bets r uid c a now).2.2 = bets ++ [⟨r, uid, c, a, now⟩]
      ∧ get_points (place_bet us bets r uid c a now).2.1 uid = get_points us uid - a) := by
  rcases hfb : find_bet bets r uid with _ | b
  · rcases hfu : find_user us uid with _ | pts
    · have heq : place_bet us bets r uid c a now = ("NO_MONEY", us, bets) := by
        simp [place_bet, hfb, hfu]
      rw [heq]
      refine ⟨fun _ => ⟨rfl, rfl⟩, by simp, ?_, by simp⟩
      simp [hfu]
    · by_cases hlt : pts < a
      · have heq : place_bet us bets r uid c a now = ("NO_MONEY", us, bets) := by
          simp [place_bet, hfb, hfu, hlt]
        rw [heq]
        refine ⟨fun _ => ⟨rfl, rfl⟩, by simp, ?_, by simp⟩
        have hgp : get_points us uid = pts := by simp [get_points, hfu]
        simp only [hgp]
        constructor
        · intro hc2
          exact absurd (show ("NO_MONEY" : String) = "OK" from hc2) (by decide)
        · rintro ⟨-, -, hle⟩
          exact absurd hle (not_le.mpr hlt)
      · have heq : place_bet us bets r uid c a now
            = ("OK", add_points us uid (-a), bets ++ [⟨r, uid, c, a, now⟩]) := by
          simp [place_bet, hfb, hfu, hlt]
        rw [heq]
        have hgp : get_points us uid = pts := by simp [get_points, hfu]
        refine ⟨?_, by simp, ?_, ?_⟩
        · rintro (hc2 | hc2)
          · exact absurd (show ("OK" : String) = "ALREADY" from hc2) (by decide)
          · exact absurd (show ("OK" : String) = "NO_MONEY" from hc2) (by decide)
        · constructor
          · intro _
            refine ⟨rfl, by simp, ?_⟩
            rw [hgp]
            exact le_of_not_lt hlt
          · intro _
            rfl
        · intro _
          refine ⟨rfl, ?_⟩
          rw [get_points_add_points_self us uid (-a) (by simp [hfu]), hgp]
          ring
  · have heq : place_bet us bets r uid c a now = ("ALREADY", us, bets) := by
      simp [place_bet, hfb]
    rw [heq]
    refine ⟨fun _ => ⟨rfl, rfl⟩, by simp, ?_, ?_⟩
    · constructor
      · intro hc2
        exact absurd (show ("ALREADY" : String) = "OK" from hc2) (by decide)
      · rintro ⟨hc2, -⟩
        cases hc2
    · intro hc2
      exact absurd (show ("ALREADY" : String) = "OK" from hc2) (by decide)

/-- Witness for C3 (amended) at concrete inputs: a 1,000 bet from a
balance of 10,000 succeeds, debits to 9,000 and appends the row; a 1,001
bet from a balance of 1,000 fails with NO_MONEY and mutates nothing. -/
theorem place_bet_atomic_spec_witness :
    ((place_bet [(1, 10000)] [] 5 1 "D" 1000 50).1 = "OK" ↔
        find_bet [] 5 1 = none ∧ (find_user [(1, 10000)] 1).isSome
      ∧ (1000 : Int) ≤ get_points [(1, 10000)] 1)
  ∧ (place_bet [(1, 10000)] [] 5 1 "D" 1000 50).2.2 = [⟨5, 1, "D", 1000, 50⟩]
  ∧ get_points (place_bet [(1, 10000)] [] 5 1 "D" 1000 50).2.1 1 = 10000 - 1000
  ∧ ((place_bet [(9, 1000)] [] 6 9 "T" 1001 50).2.1 = [(9, 1000)]
     ∧ (place_bet [(9, 1000)] [] 6 9 "T" 1001 50).2.2 = []) := by
  have h1 := place_bet_atomic_spec [(1, 10000)] [] 5 1 "D" 1000 50
  have h2 := place_bet_atomic_spec [(9, 1000)] [] 6 9 "T" 1001 50
  have hok := h1.2.2.2 (by decide)
  exact ⟨h1.2.2.1, hok.1, by rw [hok.2]; decide, h2.1 (Or.inr (by decide))⟩

/-- A found balance belongs to a row of the table. -/
theorem find_user_some_mem (us : Users) (v : Nat) (p : Int)
    (h : find_user us v = some p) : (v, p) ∈ us := by
  induction us with
  | nil => simp [find_user] at h
  | cons q rest ih =>
    by_cases hq : q.1 = v
    · rw [find_user, if_pos hq] at h
      cases h
      have hqv : (v, q.2) = q := by rw [← hq]
      rw [hqv]
      exact List.mem_cons_self _ _
    · rw [find_user, if_neg hq] at h
      exact List.mem_cons_of_mem _ (ih h)

/-- Counterexample to claim C2 as stated: add_points applies any delta
unconditionally, so the administrative grant .give -300000 to a fresh
user (starting balance 200000) drives the balance to -100000 with no
InsufficientFundsError — no such error path exists in the code. -/
theorem give_negative_delta_cex :
    get_points (handle_give [] 42 (-300000)) 42 = -100000
  ∧ ¬ ((0 : Int) ≤ get_points (handle_give [] 42 (-300000)) 42) := by decide

/-- Claim C2 (amended): balances stay nonnegative under player creation,
the daily reward, nonnegative administrative grants, bet placement and
settlement ticks; an administrative grant with a negative delta is
applied unconditionally (no InsufficientFundsError exists) and can drive
a balance below zero. -/
theorem core_ops_preserve_nonneg (us : Users) (w : World) (uid target : Nat)
    (choice : String) (amount δ : Int) (now : Nat) (d t : Card) :
    (LedgerInv us → ∀ v : Nat, 0 ≤ get_points us v)
  ∧ (LedgerInv us → LedgerInv (ensure_user us uid))
  ∧ (LedgerInv us → LedgerInv (handle_daily us uid))
  ∧ (LedgerInv us → 0 ≤ δ → LedgerInv (handle_give us target δ))
  ∧ (WorldInv w → WorldInv (handle_bet w uid choice amount now))
  ∧ (WorldInv w → WorldInv (game_tick w now d t)) := by
  refine ⟨?_, ?_, ?_, ?_, ?_, ?_⟩
  · intro hw v
    unfold get_points
    rcases hf : find_user us v with _ | p
    · exact le_refl 0
    · exact hw.2 (v, p) (find_user_some_mem us v p hf)
  · intro hw
    exact ⟨nodup_ensure_user _ _ hw.1, nonneg_ensure_user _ _ hw.2⟩
  · intro hw
    refine ⟨nodup_add_points _ _ _ (nodup_ensure_user _ _ hw.1), ?_⟩
    exact nonneg_add_points_of_nonneg _ _ _ (nonneg_ensure_user _ _ hw.2)
      (by norm_num [DAILY_REWARD])
  · intro hw hδ
    unfold handle_give
    by_cases h0 : δ = 0
    · rw [if_pos h0]
      exact hw
    · rw [if_neg h0]
      exact ⟨nodup_add_points _ _ _ (nodup_ensure_user _ _ hw.1),
             nonneg_add_points_of_nonneg _ _ _ (nonneg_ensure_user _ _ hw.2) hδ⟩
  · intro hw
    have hInv1 : LedgerInv (ensure_user w.users uid) :=
      ⟨nodup_ensure_user _ _ hw.1.1, nonneg_ensure_user _ _ hw.1.2⟩
    by_cases h1 : w.st.phase = "BETTING"
    · by_cases h2 : (CHOICES choice).isNone = true
      · rw [handle_bet_fail w uid choice amount now (Or.inr (Or.inl h2))]
        exact ⟨hInv1, hw.2⟩
      · by_cases h3 : amount ≤ 0
        · rw [handle_bet_fail w uid choice amount now (Or.inr (Or.inr h3))]
          exact ⟨hInv1, hw.2⟩
        · rw [handle_bet_success_shape w uid choice amount now h1 h2 h3]
          rcases place_bet_cases (ensure_user w.users uid) w.bets w.st.round_id uid
              choice amount now with ⟨heq, _⟩ | heq | ⟨heq, hnone, pts, hpts, hle⟩
          · rw [heq]
            exact ⟨hInv1, hw.2⟩
          · rw [heq]
            exact ⟨hInv1, hw.2⟩
          · rw [heq]
            constructor
            · refine ⟨nodup_add_points _ _ _ hInv1.1, ?_⟩
              apply nonneg_add_points_of_le _ _ _ hInv1.2 hInv1.1
              intro v hv
              rw [hpts] at hv
              cases hv
              omega
            · intro b hb
              rcases List.mem_append.mp hb with hb | hb
              · exact hw.2 b hb
              · rw [List.mem_singleton] at hb
                subst hb
                exact le_of_lt (not_le.mp h3)
    · rw [handle_bet_fail w uid choice amount now (Or.inl h1)]
      exact ⟨hInv1, hw.2⟩
  · intro hw
    by_cases hb : w.st.phase = "BETTING"
    · by_cases hlt : now < w.st.ends_at
      · rw [game_tick_noop_betting w now d t hb hlt]
        exact hw
      · rw [game_tick_close w now d t hb hlt]
        exact ⟨hw.1, hw.2⟩
    · by_cases hc : w.st.phase = "CLOSED"
      · by_cases hlt : now < w.st.ends_at
        · rw [game_tick_noop_closed w now d t hc hlt]
          exact hw
        · rw [game_tick_settle w now d t hc hlt]
          constructor
          · refine ⟨nodup_settle_credits _ _ _ hw.1.1, ?_⟩
            apply nonneg_settle_credits _ _ _ hw.1.2
            intro b2 hb2
            exact hw.2 b2 ((mem_fetch_bets _ _ b2).mp hb2).1
          · intro b2 hb2
            exact hw.2 b2 ((mem_clear_bets _ _ b2).mp hb2).1
      · rw [game_tick_other w now d t hb hc]
        exact hw

/-- Witness for C2 (amended) at concrete stores: the daily reward, a
positive grant, a bet placement and a due settlement tick each preserve
the nonnegative-balances invariant. -/
theorem core_ops_preserve_nonneg_witness :
    LedgerInv (handle_daily [(1, 5)] 1)
  ∧ LedgerInv (handle_give [(1, 5)] 2 10)
  ∧ WorldInv (handle_bet ⟨[(1, 5)], [], ⟨5, "BETTING", 100, none⟩, []⟩ 1 "D" 2 50)
  ∧ WorldInv (game_tick ⟨[(1, 5)], [⟨5, 1, "D", 2, 0⟩], ⟨5, "CLOSED", 100, none⟩, []⟩
      100 ⟨"A", "S"⟩ ⟨"K", "H"⟩) :=
  ⟨(core_ops_preserve_nonneg [(1, 5)]
      ⟨[(1, 5)], [], ⟨5, "BETTING", 100, none⟩, []⟩ 1 2 "D" 2 10 50
      ⟨"A", "S"⟩ ⟨"K", "H"⟩).2.2.1
      (by unfold LedgerInv NodupKeys NonnegUsers; decide),
   (core_ops_preserve_nonneg [(1, 5)]
      ⟨[(1, 5)], [], ⟨5, "BETTING", 100, none⟩, []⟩ 1 2 "D" 2 10 50
      ⟨"A", "S"⟩ ⟨"K", "H"⟩).2.2.2.1
      (by unfold LedgerInv NodupKeys NonnegUsers; decide) (by decide),
   (core_ops_preserve_nonneg [(1, 5)]
      ⟨[(1, 5)], [], ⟨5, "BETTING", 100, none⟩, []⟩ 1 2 "D" 2 10 50
      ⟨"A", "S"⟩ ⟨"K", "H"⟩).2.2.2.2.1
      (by unfold WorldInv LedgerInv NodupKeys NonnegUsers; decide),
   (core_ops_preserve_nonneg [(1, 5)]
      ⟨[(1, 5)], [⟨5, 1, "D", 2, 0⟩], ⟨5, "CLOSED", 100, none⟩, []⟩ 1 2 "D" 2 10 100
      ⟨"A", "S"⟩ ⟨"K", "H"⟩).2.2.2.2.2
      (by unfold WorldInv LedgerInv NodupKeys NonnegUsers; decide)⟩

/-- Claim C10 (implicit): the settlement tick deletes every bet row of
the round it settles, and the bet book only ever holds rows of the
current round id — the property is preserved by bet placement and by
every tick. -/
theorem bet_book_only_current_round (w : World) (now : Nat) (d t : Card)
    (uid : Nat) (choice : String) (amount : Int) :
    (w.st.phase = "CLOSED" → ¬ now < w.st.ends_at →
       ∀ b ∈ (game_tick w now d t).bets, ¬ b.round_id = w.st.round_id)
  ∧ (BookCurrent w → BookCurrent (game_tick w now d t))
  ∧ (BookCurrent w → BookCurrent (handle_bet w uid choice amount now)) := by
  refine ⟨?_, ?_, ?_⟩
  · intro hph hge b hb
    rw [game_tick_settle w now d t hph hge] at hb
    exact ((mem_clear_bets _ _ b).mp hb).2
  · intro hcur
    by_cases hb : w.st.phase = "BETTING"
    · by_cases hlt : now < w.st.ends_at
      · rw [game_tick_noop_betting w now d t hb hlt]
        exact hcur
      · rw [game_tick_close w now d t hb hlt]
        intro b hb2
        exact hcur b hb2
    · by_cases hc : w.st.phase = "CLOSED"
      · by_cases hlt : now < w.st.ends_at
        · rw [game_tick_noop_closed w now d t hc hlt]
          exact hcur
        · rw [game_tick_settle w now d t hc hlt]
          intro b hb2
          have h1 := (mem_clear_bets _ _ b).mp hb2
          exact absurd (hcur b h1.1) h1.2
      · rw [game_tick_other w now d t hb hc]
        exact hcur
  · intro hcur
    by_cases h1 : w.st.phase = "BETTING"
    · by_cases h2 : (CHOICES choice).isNone = true
      · rw [handle_bet_fail w uid choice amount now (Or.inr (Or.inl h2))]
        exact hcur
      · by_cases h3 : amount ≤ 0
        · rw [handle_bet_fail w uid choice amount now (Or.inr (Or.inr h3))]
          exact hcur
        · rw [handle_bet_success_shape w uid choice amount now h1 h2 h3]
          rcases place_bet_cases (ensure_user w.users uid) w.bets w.st.round_id uid
              choice amount now with ⟨heq, _⟩ | heq | ⟨heq, _, _⟩
          · rw [heq]
            exact hcur
          · rw [heq]
            exact hcur
          · rw [heq]
            intro b hb2
            rcases List.mem_append.mp hb2 with hb2 | hb2
            · exact hcur b hb2
            · rw [List.mem_singleton] at hb2
              subst hb2
              rfl
    · rw [handle_bet_fail w uid choice amount now (Or.inl h1)]
      exact hcur

/-- Witness for C10: a due CLOSED tick at round 5 leaves no round-5 bet
row and a current-only book; a successful bet insert keeps the book
current. -/
theorem bet_book_only_current_round_witness :
    (∀ b ∈ (game_tick ⟨[(1, 5)], [⟨5, 1, "D", 2, 0⟩], ⟨5, "CLOSED", 100, none⟩, []⟩
        100 ⟨"A", "S"⟩ ⟨"K", "H"⟩).bets, ¬ b.round_id = 5)
  ∧ BookCurrent (game_tick ⟨[(1, 5)], [⟨5, 1, "D", 2, 0⟩], ⟨5, "CLOSED", 100, none⟩, []⟩
      100 ⟨"A", "S"⟩ ⟨"K", "H"⟩)
  ∧ BookCurrent (handle_bet ⟨[(1, 5)], [], ⟨5, "BETTING", 100, none⟩, []⟩ 1 "D" 2 50) :=
  ⟨(bet_book_only_current_round
      ⟨[(1, 5)], [⟨5, 1, "D", 2, 0⟩], ⟨5, "CLOSED", 100, none⟩, []⟩
      100 ⟨"A", "S"⟩ ⟨"K", "H"⟩ 1 "D" 2).1 rfl (by decide),
   (bet_book_only_current_round
      ⟨[(1, 5)], [⟨5, 1, "D", 2, 0⟩], ⟨5, "CLOSED", 100, none⟩, []⟩
      100 ⟨"A", "S"⟩ ⟨"K", "H"⟩ 1 "D" 2).2.1 (by unfold BookCurrent; decide),
   (bet_book_only_current_round
      ⟨[(1, 5)], [], ⟨5, "BETTING", 100, none⟩, []⟩
      50 ⟨"A", "S"⟩ ⟨"K", "H"⟩ 1 "D" 2).2.2 (by unfold BookCurrent; decide)⟩

/-- Counterexample to claim C9 as stated: insert_road uses INSERT OR
REPLACE keyed by round id, so a second write for round 5 replaces the
existing record — the round-5 record written first no longer exists. -/
theorem road_overwrite_cex :
    insert_road (insert_road [] 5 "D" "QH" "7S" 100) 5 "T" "3H" "8S" 101
      = [⟨5, "T", "3H", "8S", 101⟩]
  ∧ ¬ (⟨5, "D", "QH", "7S", 100⟩ : RoadRow)
        ∈ insert_road (insert_road [] 5 "D" "QH" "7S" 100) 5 "T" "3H" "8S" 101 := by
  decide

/-- Claim C9 (amended): the history is keyed by round id with at most one
record per id; records of other round ids are never deleted or modified,
and a settlement tick writes only the current round id — but insert_road
upserts (INSERT OR REPLACE): a second write for the same round id
replaces the existing record rather than leaving it in place. -/
theorem road_history_keyed_upsert (road : List RoadRow) (r : Nat)
    (res dtx ttx : String) (now : Nat) (w : World) (now' : Nat) (d t : Card) :
    (AtMostOneRoadPerRound road →
        AtMostOneRoadPerRound (insert_road road r res dtx ttx now))
  ∧ (∀ row ∈ road, ¬ row.round_id = r → row ∈ insert_road road r res dtx ttx now)
  ∧ (∀ row ∈ insert_road road r res dtx ttx now, row ∈ road ∨ row.round_id = r)
  ∧ (∀ row ∈ w.road, ¬ row.round_id = w.st.round_id → row ∈ (game_tick w now' d t).road)
  ∧ (∀ row ∈ (game_tick w now' d t).road, row ∈ w.road ∨ row.round_id = w.st.round_id) := by
  refine ⟨atMostOne_insert_road road r res dtx ttx now,
          fun row hrow hne => mem_insert_road_of_ne road r res dtx ttx now row hrow hne,
          fun row hrow => mem_insert_road_cases road r res dtx ttx now row hrow, ?_, ?_⟩
  · intro row hrow hne
    by_cases hb : w.st.phase = "BETTING"
    · by_cases hlt : now' < w.st.ends_at
      · rw [game_tick_noop_betting w now' d t hb hlt]
        exact hrow
      · rw [game_tick_close w now' d t hb hlt]
        exact hrow
    · by_cases hc : w.st.phase = "CLOSED"
      · by_cases hlt : now' < w.st.ends_at
        · rw [game_tick_noop_closed w now' d t hc hlt]
          exact hrow
        · rw [game_tick_settle w now' d t hc hlt]
          exact mem_insert_road_of_ne _ _ _ _ _ _ row hrow hne
      · rw [game_tick_other w now' d t hb hc]
        exact hrow
  · intro row hrow
    by_cases hb : w.st.phase = "BETTING"
    · by_cases hlt : now' < w.st.ends_at
      · rw [game_tick_noop_betting w now' d t hb hlt] at hrow
        exact Or.inl hrow
      · rw [game_tick_close w now' d t hb hlt] at hrow
        exact Or.inl hrow
    · by_cases hc : w.st.phase = "CLOSED"
      · by_cases hlt : now' < w.st.ends_at
        · rw [game_tick_noop_closed w now' d t hc hlt] at hrow
          exact Or.inl hrow
        · rw [game_tick_settle w now' d t hc hlt] at hrow
          exact mem_insert_road_cases _ _ _ _ _ _ row hrow
      · rw [game_tick_other w now' d t hb hc] at hrow
        exact Or.inl hrow

/-- Witness for C9 (amended): with a round-4 record on file, writing
round 5 keeps per-round uniqueness and leaves the round-4 record intact,
and a due round-5 settlement tick also preserves the round-4 record. -/
theorem road_history_keyed_upsert_witness :
    AtMostOneRoadPerRound (insert_road [⟨4, "T", "a", "b", 90⟩] 5 "D" "x" "y" 100)
  ∧ (⟨4, "T", "a", "b", 90⟩ : RoadRow) ∈ insert_road [⟨4, "T", "a", "b", 90⟩] 5 "D" "x" "y" 100
  ∧ (⟨4, "T", "a", "b", 90⟩ : RoadRow)
      ∈ (game_tick ⟨[], [], ⟨5, "CLOSED", 100, none⟩, [⟨4, "T", "a", "b", 90⟩]⟩
          100 ⟨"A", "S"⟩ ⟨"K", "H"⟩).road :=
  ⟨(road_history_keyed_upsert [⟨4, "T", "a", "b", 90⟩] 5 "D" "x" "y" 100
      ⟨[], [], ⟨5, "CLOSED", 100, none⟩, [⟨4, "T", "a", "b", 90⟩]⟩ 100
      ⟨"A", "S"⟩ ⟨"K", "H"⟩).1 (by
        intro r0
        by_cases h : (4 : Nat) = r0
        · simp [List.filter, h]
        · simp [List.filter, h]),
   (road_history_keyed_upsert [⟨4, "T", "a", "b", 90⟩] 5 "D" "x" "y" 100
      ⟨[], [], ⟨5, "CLOSED", 100, none⟩, [⟨4, "T", "a", "b", 90⟩]⟩ 100
      ⟨"A", "S"⟩ ⟨"K", "H"⟩).2.1 ⟨4, "T", "a", "b", 90⟩ (by decide) (by decide),
   (road_history_keyed_upsert [⟨4, "T", "a", "b", 90⟩] 5 "D" "x" "y" 100
      ⟨[], [], ⟨5, "CLOSED", 100, none⟩, [⟨4, "T", "a", "b", 90⟩]⟩ 100
      ⟨"A", "S"⟩ ⟨"K", "H"⟩).2.2.2.1 ⟨4, "T", "a", "b", 90⟩ (by decide) (by decide)⟩

/-- Counterexample to claim C1 as stated: a crash after the crediting
loop but before clear_bets/insert_road/set_state leaves the round CLOSED
and due with the bets still on file; the retried tick (drawing the same
winner) credits the winning bet again — 13000 instead of the 11000 a
single settlement produces.  The code checks no Outcome Record and keeps
no per-round settlement marker before crediting. -/
theorem settlement_replay_cex :
    get_points (game_tick ⟨[(1, 9000)], [⟨5, 1, "D", 1000, 50⟩], ⟨5, "CLOSED", 100, none⟩, []⟩
        100 ⟨"Q", "H"⟩ ⟨"7", "S"⟩).users 1 = 11000
  ∧ get_points (game_tick (crash_after_credits
        ⟨[(1, 9000)], [⟨5, 1, "D", 1000, 50⟩], ⟨5, "CLOSED", 100, none⟩, []⟩
        ⟨"Q", "H"⟩ ⟨"7", "S"⟩) 100 ⟨"Q", "H"⟩ ⟨"7", "S"⟩).users 1 = 13000
  ∧ ¬ (13000 : Int) = 11000 := by
  have h : DragonTiger.decide ⟨"Q", "H"⟩ ⟨"7", "S"⟩ = "D" := rfl
  have hpa : payout_amount 1000 "D" = 2000 := by
    norm_num [payout_amount, pyInt, rat_floor_eq, PAYOUT]
  refine ⟨?_, ?_, by decide⟩
  · rw [game_tick_settle _ 100 _ _ rfl (by decide), h]
    show get_points (settle_credits [(1, 9000)]
        (fetch_bets [⟨5, 1, "D", 1000, 50⟩] 5) "D") 1 = 11000
    norm_num [settle_credits, fetch_bets, add_points, get_points, find_user, hpa,
      List.filter, List.foldl]
  · rw [game_tick_settle _ 100 _ _ rfl (by decide), h]
    show get_points (settle_credits (settle_credits [(1, 9000)]
        (fetch_bets [⟨5, 1, "D", 1000, 50⟩] 5) "D")
        (fetch_bets [⟨5, 1, "D", 1000, 50⟩] 5) "D") 1 = 13000
    norm_num [settle_credits, fetch_bets, add_points, get_points, find_user, hpa,
      List.filter, List.foldl]

/-- Claim C1 (amended): a retried settlement tick after a crash between
crediting winners and clearing the bet book re-runs the crediting loop on
the still-present bets (so winning bets are credited a second time and
final balances differ from a single run); only a retry from a crash point
after clear_bets leaves every balance identical to running settlement
once. -/
theorem settlement_replay_behavior (w : World) (now' : Nat) (d t d' t' : Card)
    (hph : w.st.phase = "CLOSED") (hdue : ¬ now' < w.st.ends_at) :
    (game_tick (crash_after_credits w d t) now' d' t').users
      = settle_credits
          (settle_credits w.users (fetch_bets w.bets w.st.round_id) (decide d t))
          (fetch_bets w.bets w.st.round_id) (decide d' t')
  ∧ ∀ (us1 : Users) (rd1 : List RoadRow),
      (game_tick ⟨us1, clear_bets w.bets w.st.round_id, w.st, rd1⟩ now' d' t').users = us1 := by
  constructor
  · have hph2 : (crash_after_credits w d t).st.phase = "CLOSED" := hph
    have hdue2 : ¬ now' < (crash_after_credits w d t).st.ends_at := hdue
    rw [game_tick_settle _ now' d' t' hph2 hdue2]
    rfl
  · intro us1 rd1
    have hph2 : (⟨us1, clear_bets w.bets w.st.round_id, w.st, rd1⟩ : World).st.phase
        = "CLOSED" := hph
    have hdue2 : ¬ now' < (⟨us1, clear_bets w.bets w.st.round_id, w.st, rd1⟩ : World).st.ends_at :=
      hdue
    rw [game_tick_settle _ now' d' t' hph2 hdue2]
    show settle_credits us1
        (fetch_bets (clear_bets w.bets w.st.round_id) w.st.round_id) (decide d' t') = us1
    rw [fetch_bets_clear_bets]
    rfl

/-- Witness for C1 (amended) at the concrete crash scenario: the retried
tick re-applies the crediting loop to the same bet book, while a retry
after the book was cleared leaves the credited balances untouched. -/
theorem settlement_replay_behavior_witness :
    (game_tick (crash_after_credits
        ⟨[(1, 9000)], [⟨5, 1, "D", 1000, 50⟩], ⟨5, "CLOSED", 100, none⟩, []⟩
        ⟨"Q", "H"⟩ ⟨"7", "S"⟩) 100 ⟨"Q", "H"⟩ ⟨"7", "S"⟩).users
      = settle_credits
          (settle_credits [(1, 9000)] (fetch_bets [⟨5, 1, "D", 1000, 50⟩] 5)
            (decide ⟨"Q", "H"⟩ ⟨"7", "S"⟩))
          (fetch_bets [⟨5, 1, "D", 1000, 50⟩] 5) (decide ⟨"Q", "H"⟩ ⟨"7", "S"⟩)
  ∧ (game_tick ⟨[(1, 11000)], clear_bets [⟨5, 1, "D", 1000, 50⟩] 5,
        ⟨5, "CLOSED", 100, none⟩, []⟩ 100 ⟨"Q", "H"⟩ ⟨"7", "S"⟩).users = [(1, 11000)] :=
  ⟨(settlement_replay_behavior
      ⟨[(1, 9000)], [⟨5, 1, "D", 1000, 50⟩], ⟨5, "CLOSED", 100, none⟩, []⟩
      100 ⟨"Q", "H"⟩ ⟨"7", "S"⟩ ⟨"Q", "H"⟩ ⟨"7", "S"⟩ rfl (by decide)).1,
   (settlement_replay_behavior
      ⟨[(1, 9000)], [⟨5, 1, "D", 1000, 50⟩], ⟨5, "CLOSED", 100, none⟩, []⟩
      100 ⟨"Q", "H"⟩ ⟨"7", "S"⟩ ⟨"Q", "H"⟩ ⟨"7", "S"⟩ rfl (by decide)).2
      [(1, 11000)] []⟩

end DragonTiger
